import Mathlib

/-!
Verification development for the badjware/gitlabfs repository.

The Go sources under verification are shallowly embedded below:
* src/gitlab/project.go : Project and newProjectFromGitlabProject
* src/unnamed/part_000 (gitlab user code) : User, UserContent, FetchUserContent
* src/main.go : Config, makeGitlabConfig, makeGitConfig and the startup
  validation sequence of main

Go strings are Lean String, Go int is Lean Int (only copied, never
computed with, so no overflow modelling is needed), Go maps keyed by
string are association lists with overwrite-on-insert semantics, Go
pointers-used-as-optionals are Option, and Go (T, error) returns are
Except String T.
-/

namespace Gitlabfs

/-- Modelled from the spec: the constants PullMethodHTTP and PullMethodSSH are
declared in the gitlab package outside the provided sources. The example
config file pins their values: pull_method must be set to either "http" or
"ssh". -/
def PullMethodHTTP : String := "http"

/-- Modelled from the spec: see PullMethodHTTP. -/
def PullMethodSSH : String := "ssh"

/-- Modelled from the spec: the constants CloneInit and CloneClone are declared
in the git package outside the provided sources; only their distinctness is
observable here. -/
def CloneInit : Int := 1

/-- Modelled from the spec: see CloneInit. -/
def CloneClone : Int := 2

/-- The fields of the go-gitlab remote Project type read by the code under
verification (src/gitlab/project.go). Name is the display name, Path the URL
slug. -/
structure GitlabProject where
  ID : Int
  Name : String
  Path : String
  DefaultBranch : String
  SSHURLToRepo : String
  HTTPURLToRepo : String
deriving DecidableEq, Repr

/-- gitlab.Project from src/gitlab/project.go. -/
structure Project where
  ID : Int
  Name : String
  CloneURL : String
  DefaultBranch : String
deriving DecidableEq, Repr

/-- newProjectFromGitlabProject from src/gitlab/project.go. The receiver's
PullMethod field is passed explicitly. The Go struct literal leaves CloneURL
at its zero value "" before the pull-method branch assigns it. -/
def newProjectFromGitlabProject (pullMethod : String) (project : GitlabProject) : Project :=
  let p : Project :=
    { ID := project.ID
      Name := project.Path
      CloneURL := ""
      DefaultBranch := project.DefaultBranch }
  let p := if p.DefaultBranch = "" then { p with DefaultBranch := "master" } else p
  if pullMethod = PullMethodSSH then { p with CloneURL := project.SSHURLToRepo }
  else { p with CloneURL := project.HTTPURLToRepo }

/-- GitlabConfig from src/main.go (yaml section gitlab). -/
structure GitlabConfig where
  URL : String
  Token : String
  GroupIDs : List Int
  UserIDs : List Int
  IncludeCurrentUser : Bool
deriving DecidableEq, Repr

/-- GitConfig from src/main.go (yaml section git). -/
structure GitConfig where
  CloneLocation : String
  Remote : String
  PullMethod : String
  OnClone : String
  AutoPull : Bool
  Depth : Int
  QueueSize : Int
  QueueWorkerCount : Int
deriving DecidableEq, Repr

/-- Config from src/main.go (the FS section is irrelevant to the claims and
mounted separately in main). -/
structure Config where
  Gitlab : GitlabConfig
  Git : GitConfig
deriving DecidableEq, Repr

/-- gitlab.GitlabClientParam as populated by makeGitlabConfig. -/
structure GitlabClientParam where
  PullMethod : String
  IncludeCurrentUser : Bool
deriving DecidableEq, Repr

/-- git.GitClientParam as populated by makeGitConfig. RemoteURL holds the
result of url.Parse, abstracted to the parsed string. -/
structure GitClientParam where
  CloneLocation : String
  RemoteName : String
  RemoteURL : String
  CloneMethod : Int
  AutoPull : Bool
  PullDepth : Int
  QueueSize : Int
  QueueWorkerCount : Int
deriving DecidableEq, Repr

/-- makeGitlabConfig from src/main.go: rejects a pull_method outside
the two constants, and includes the current user only when the option is on
and the token is non-empty. -/
def makeGitlabConfig (config : Config) : Except String GitlabClientParam :=
  if config.Git.PullMethod ≠ PullMethodHTTP ∧ config.Git.PullMethod ≠ PullMethodSSH then
    .error "pull_method must be either \"http\" or \"ssh\""
  else
    .ok
      { PullMethod := config.Git.PullMethod
        IncludeCurrentUser :=
          config.Gitlab.IncludeCurrentUser && decide (config.Gitlab.Token ≠ "") }

/-- makeGitConfig from src/main.go: parses the gitlab URL (url.Parse is
abstracted as the urlParse argument since it lives outside the sources),
rejects an on_clone outside init and clone, and passes every other git
setting through unchecked. -/
def makeGitConfig (urlParse : String → Except String String) (config : Config) :
    Except String GitClientParam :=
  match urlParse config.Gitlab.URL with
  | .error e => .error e
  | .ok parsedGitlabURL =>
    if config.Git.OnClone = "init" then
      .ok
        { CloneLocation := config.Git.CloneLocation
          RemoteName := config.Git.Remote
          RemoteURL := parsedGitlabURL
          CloneMethod := CloneInit
          AutoPull := config.Git.AutoPull
          PullDepth := config.Git.Depth
          QueueSize := config.Git.QueueSize
          QueueWorkerCount := config.Git.QueueWorkerCount }
    else if config.Git.OnClone = "clone" then
      .ok
        { CloneLocation := config.Git.CloneLocation
          RemoteName := config.Git.Remote
          RemoteURL := parsedGitlabURL
          CloneMethod := CloneClone
          AutoPull := config.Git.AutoPull
          PullDepth := config.Git.Depth
          QueueSize := config.Git.QueueSize
          QueueWorkerCount := config.Git.QueueWorkerCount }
    else
      .error "on_clone must be either \"init\" or \"clone\""

/-- The startup validation sequence of main in src/main.go: makeGitConfig is
called first, then makeGitlabConfig; either error makes main print the
message and exit(1) before the filesystem tree or the git queue is
constructed (fs.Start runs only after both succeed). -/
def startupValidate (urlParse : String → Except String String) (config : Config) :
    Except String (GitClientParam × GitlabClientParam) :=
  match makeGitConfig urlParse config with
  | .error e => .error e
  | .ok gitParam =>
    match makeGitlabConfig config with
    | .error e => .error e
    | .ok gitlabParam => .ok (gitParam, gitlabParam)

/-- A configuration that is valid in every checked respect but has
queue_size zero. -/
def configQueueZero : Config :=
  { Gitlab :=
      { URL := "https://gitlab.com"
        Token := ""
        GroupIDs := [9970]
        UserIDs := []
        IncludeCurrentUser := true }
    Git :=
      { CloneLocation := "/data/gitlabfs"
        Remote := "origin"
        PullMethod := "http"
        OnClone := "init"
        AutoPull := false
        Depth := 0
        QueueSize := 0
        QueueWorkerCount := 5 } }

/-- configQueueZero with a non-empty API token. -/
def configWithToken : Config :=
  { configQueueZero with Gitlab := { configQueueZero.Gitlab with Token := "t" } }

/-- configQueueZero with an invalid pull method. -/
def configBadPullMethod : Config :=
  { configQueueZero with Git := { configQueueZero.Git with PullMethod := "rsync" } }

/-- The Go map map[string]*Project of UserContent.Projects, as an association
list in which the most recent binding for a key is first. -/
abbrev ProjMap := List (String × Project)

/-- Go map assignment m[k] = v: overwrites any previous binding for k. -/
def mapInsert (m : ProjMap) (k : String) (v : Project) : ProjMap :=
  (k, v) :: m.filter (fun kv => kv.1 != k)

/-- Go map read m[n]: the binding for n, when present. -/
def mapLookup (n : String) : ProjMap → Option Project
  | [] => none
  | kv :: rest => if kv.1 = n then some kv.2 else mapLookup n rest

/-- gitlab.UserContent from src/unnamed/part_000. -/
structure UserContent where
  Projects : ProjMap
deriving DecidableEq, Repr

/-- gitlab.User from src/unnamed/part_000; the unexported content pointer
(nil when not yet fetched) is an Option. -/
structure User where
  ID : Int
  Name : String
  content : Option UserContent
deriving DecidableEq, Repr

/-- The inner per-page loop body of FetchUserContent: each fetched remote
project is converted and stored under its Name (overwriting any previous
project with the same name). -/
def addPageProjects (pullMethod : String) (m : ProjMap) (page : List GitlabProject) : ProjMap :=
  page.foldl
    (fun m gp =>
      let project := newProjectFromGitlabProject pullMethod gp
      mapInsert m project.Name project)
    m

/-- The pagination loop of FetchUserContent. The remote server is modelled by
the sequence of responses it gives to the successive page requests (page 1,
2, ...): each element is either an API error or that page's project list,
and the response metadata (CurrentPage, TotalPages, NextPage) is well-formed,
so the loop stops after the final element. An error on any page aborts the
loop immediately with the wrapped error, exactly as the Go code returns. -/
def listUserProjectsLoop (pullMethod : String) :
    List (Except String (List GitlabProject)) → ProjMap → Except String ProjMap
  | [], m => .ok m
  | .error e :: _, _ => .error ("failed to fetch projects in gitlab: " ++ e)
  | .ok page :: rest, m => listUserProjectsLoop pullMethod rest (addPageProjects pullMethod m page)

/-- Number of ListUserProjects requests the loop issues before stopping at an
error page or exhausting the responses. -/
def pagesFetched : List (Except String (List GitlabProject)) → Nat
  | [] => 0
  | .error _ :: _ => 1
  | .ok _ :: rest => 1 + pagesFetched rest

/-- Total remote requests of one uncached FetchUserContent call: page 1 is
always requested, even when the server reports zero total pages. -/
def requestCount (pages : List (Except String (List GitlabProject))) : Nat :=
  max 1 (pagesFetched pages)

/-- FetchUserContent from src/unnamed/part_000. Returns the result, the user
after the call (the content field is the cache) and the number of remote
requests performed. A cached user is answered without contacting the remote;
otherwise the pagination loop runs and only a fully successful result is
stored in the cache. -/
def FetchUserContent (pullMethod : String)
    (pages : List (Except String (List GitlabProject))) (user : User) :
    Except String UserContent × User × Nat :=
  match user.content with
  | some content => (.ok content, user, 0)
  | none =>
    match listUserProjectsLoop pullMethod pages [] with
    | .error e => (.error e, user, requestCount pages)
    | .ok m =>
      let content : UserContent := { Projects := m }
      (.ok content, { user with content := some content }, requestCount pages)

/-- A remote project fixture. -/
def gpFoo : GitlabProject :=
  { ID := 7
    Name := "Foo Project"
    Path := "foo"
    DefaultBranch := "main"
    SSHURLToRepo := "git@gitlab.com:u/foo.git"
    HTTPURLToRepo := "https://gitlab.com/u/foo.git" }

/-- A user that has not fetched its content yet. -/
def userFresh : User := { ID := 42, Name := "u", content := none }

/-- The single-page server used by the concrete runs. -/
def pagesFoo : List (Except String (List GitlabProject)) := [.ok [gpFoo]]

/-- The content produced by fetching pagesFoo over http. -/
def contentFoo : UserContent :=
  { Projects := [("foo", newProjectFromGitlabProject PullMethodHTTP gpFoo)] }

/-- userFresh after a successful fetch of pagesFoo. -/
def userCached : User := { userFresh with content := some contentFoo }

/-- A server whose second page request fails. -/
def pagesErr : List (Except String (List GitlabProject)) :=
  [.ok [gpFoo], .error "boom"]

/-- Specification helper for the collision policy: the last project in the
list whose Path (hence entry name) equals n. -/
def lastNamed (n : String) : List GitlabProject → Option GitlabProject
  | [] => none
  | p :: rest =>
    match lastNamed n rest with
    | some q => some q
    | none => if p.Path = n then some p else none

/-- The map FetchUserContent builds from an error-free sequence of pages. -/
def buildAll (pullMethod : String) (pages : List (List GitlabProject)) : ProjMap :=
  pages.foldl (addPageProjects pullMethod) []

/-- First of two remote projects sharing the path "dup". -/
def gpDup1 : GitlabProject :=
  { ID := 1
    Name := "First"
    Path := "dup"
    DefaultBranch := "main"
    SSHURLToRepo := "ssh1"
    HTTPURLToRepo := "http1" }

/-- Second of two remote projects sharing the path "dup". -/
def gpDup2 : GitlabProject :=
  { ID := 2
    Name := "Second"
    Path := "dup"
    DefaultBranch := "main"
    SSHURLToRepo := "ssh2"
    HTTPURLToRepo := "http2" }

/-- A remote project with a path distinct from gpFoo's. -/
def gpBar : GitlabProject :=
  { ID := 8
    Name := "Bar Project"
    Path := "bar"
    DefaultBranch := ""
    SSHURLToRepo := "git@gitlab.com:u/bar.git"
    HTTPURLToRepo := "https://gitlab.com/u/bar.git" }

/-- Program counter of one goroutine executing FetchUserContent on a shared
user, at the granularity of its accesses to the shared content field: start
(about to read the field for the nil check), fetched (past the check with the
fetch-loop result in hand, about to write the field on success), done
(returned with its result). The fetch loop itself touches no shared state, so
folding it into the transition out of start loses no interleavings. -/
inductive CallerPC
  | start
  | fetched (r : Except String UserContent)
  | done (r : Except String UserContent)
deriving Repr

/-- Shared state of two goroutines racing FetchUserContent on one user: the
user's content field, the total number of remote fetch rounds performed, and
each goroutine's program counter. -/
structure RaceState where
  content : Option UserContent
  fetchCount : Nat
  pcA : CallerPC
  pcB : CallerPC
deriving Repr

/-- One step of a single goroutine in FetchUserContent: the nil check returns
the cached content when present and otherwise runs the fetch loop (counted as
one remote fetch round); past the check, a successful result is written to
the shared field and returned, a failed one is returned without writing.
Yields the new shared content, the fetches this step performed, and the new
program counter. -/
def stepCaller (pullMethod : String) (pages : List (Except String (List GitlabProject)))
    (content : Option UserContent) (pc : CallerPC) :
    Option UserContent × Nat × CallerPC :=
  match pc with
  | .start =>
    match content with
    | some c => (content, 0, .done (.ok c))
    | none =>
      (content, 1,
        .fetched ((listUserProjectsLoop pullMethod pages []).map
          fun m => { Projects := m }))
  | .fetched r =>
    match r with
    | .ok c => (some c, 0, .done (.ok c))
    | .error e => (content, 0, .done (.error e))
  | .done r => (content, 0, .done r)

/-- Interleaved execution of the two goroutines: true schedules A, false
schedules B. -/
def stepRace (pullMethod : String) (pages : List (Except String (List GitlabProject)))
    (s : RaceState) (who : Bool) : RaceState :=
  match who with
  | true =>
    let r := stepCaller pullMethod pages s.content s.pcA
    { s with content := r.1, fetchCount := s.fetchCount + r.2.1, pcA := r.2.2 }
  | false =>
    let r := stepCaller pullMethod pages s.content s.pcB
    { s with content := r.1, fetchCount := s.fetchCount + r.2.1, pcB := r.2.2 }

/-- Run a schedule of interleaved steps. -/
def runRace (pullMethod : String) (pages : List (Except String (List GitlabProject)))
    (sched : List Bool) (s : RaceState) : RaceState :=
  sched.foldl (stepRace pullMethod pages) s

/-- Both goroutines at the nil check, nothing cached, no fetches yet. -/
def raceInit : RaceState :=
  { content := none, fetchCount := 0, pcA := .start, pcB := .start }

/-- A goroutine that has not yet passed the nil check may still fetch. -/
def fetchCredit : CallerPC → Nat
  | .start => 1
  | .fetched _ => 0
  | .done _ => 0

/-- Per-goroutine invariant when the remote fetch succeeds with content c0:
any result held past the nil check is exactly c0. -/
def pcInv (c0 : UserContent) : CallerPC → Prop
  | .start => True
  | .fetched r => r = .ok c0
  | .done r => r = .ok c0

/-- Race invariant for a successful remote: the shared field is empty or
holds the converged content, each goroutine obeys pcInv, and the fetches
performed plus the fetches still possible never exceed two. -/
def raceInv (c0 : UserContent) (s : RaceState) : Prop :=
  (s.content = none ∨ s.content = some c0) ∧
  pcInv c0 s.pcA ∧ pcInv c0 s.pcB ∧
  s.fetchCount + fetchCredit s.pcA + fetchCredit s.pcB ≤ 2

/-- Claim C3: the clone URL of the constructed Project is a pure function of
the configured pull method: the SSH method always selects the SSH-form URL
and the HTTP method always selects the HTTP-form URL, for every remote
project. -/
theorem cloneURL_pure_function_of_pull_method (project : GitlabProject) :
    (newProjectFromGitlabProject PullMethodSSH project).CloneURL = project.SSHURLToRepo ∧
    (newProjectFromGitlabProject PullMethodHTTP project).CloneURL = project.HTTPURLToRepo := by
  constructor <;> rfl

/-- Claim C4: the constructed Project's DefaultBranch is "master" exactly when
the remote default branch is empty, and the remote value unchanged
otherwise. -/
theorem defaultBranch_fallback (pullMethod : String) (project : GitlabProject) :
    (newProjectFromGitlabProject pullMethod project).DefaultBranch =
      if project.DefaultBranch = "" then "master" else project.DefaultBranch := by
  simp only [newProjectFromGitlabProject]
  split <;> split <;> simp

/-- Claim C10: the constructed Project takes its Name from the remote Path
field (the URL slug), not the display name, and copies the remote id
unchanged. -/
theorem project_name_is_path_and_id_copied (pullMethod : String) (project : GitlabProject) :
    (newProjectFromGitlabProject pullMethod project).Name = project.Path ∧
    (newProjectFromGitlabProject pullMethod project).ID = project.ID := by
  simp only [newProjectFromGitlabProject]
  constructor <;> split <;> split <;> simp

/-- Claim C9: the constructed gitlab client parameter includes the current
user exactly when the include_current_user option is set and the API token is
non-empty. -/
theorem includeCurrentUser_requires_token (config : Config) (param : GitlabClientParam)
    (h : makeGitlabConfig config = .ok param) :
    param.IncludeCurrentUser = true ↔
      config.Gitlab.IncludeCurrentUser = true ∧ config.Gitlab.Token ≠ "" := by
  unfold makeGitlabConfig at h
  split at h
  · exact absurd h (by simp)
  · simp only [Except.ok.injEq] at h
    subst h
    simp [Bool.and_eq_true, decide_eq_true_iff]

/-- Witness for includeCurrentUser_requires_token at a concrete
configuration with a token. -/
theorem includeCurrentUser_requires_token_witness :
    ({ PullMethod := "http", IncludeCurrentUser := true } : GitlabClientParam).IncludeCurrentUser
        = true ↔
      configWithToken.Gitlab.IncludeCurrentUser = true ∧
      configWithToken.Gitlab.Token ≠ "" :=
  includeCurrentUser_requires_token configWithToken
    { PullMethod := "http", IncludeCurrentUser := true } rfl

/-- Claim C2, counterexample: a configuration with queue_size = 0 (valid pull
method and clone strategy) passes the entire startup validation: queue size
is never checked, so startup does not fail as the claim requires. -/
theorem queueSize_zero_passes_startup :
    startupValidate Except.ok configQueueZero =
      .ok
        ({ CloneLocation := "/data/gitlabfs"
           RemoteName := "origin"
           RemoteURL := "https://gitlab.com"
           CloneMethod := CloneInit
           AutoPull := false
           PullDepth := 0
           QueueSize := 0
           QueueWorkerCount := 5 },
         { PullMethod := "http", IncludeCurrentUser := false }) ∧
    configQueueZero.Git.QueueSize ≤ 0 := by
  constructor
  · rfl
  · decide

/-- Claim C2, amended: an invalid pull method or an invalid clone strategy
makes startup fail with a descriptive message before the tree or queue is
constructed; queue size, however, is passed through unvalidated. -/
theorem startup_rejects_invalid_method_or_strategy
    (urlParse : String → Except String String) (config : Config)
    (h : (config.Git.PullMethod ≠ PullMethodHTTP ∧ config.Git.PullMethod ≠ PullMethodSSH) ∨
         (config.Git.OnClone ≠ "init" ∧ config.Git.OnClone ≠ "clone")) :
    ∃ e, startupValidate urlParse config = .error e := by
  unfold startupValidate makeGitConfig makeGitlabConfig
  rcases h with hpm | hoc
  · cases hu : urlParse config.Gitlab.URL with
    | error e => exact ⟨e, rfl⟩
    | ok parsed =>
      by_cases hinit : config.Git.OnClone = "init"
      · simp [hinit, hpm]
      · by_cases hclone : config.Git.OnClone = "clone"
        · simp [hinit, hclone, hpm]
        · simp [hinit, hclone]
  · cases hu : urlParse config.Gitlab.URL with
    | error e => exact ⟨e, rfl⟩
    | ok parsed => simp [hoc.1, hoc.2]

/-- Witness for startup_rejects_invalid_method_or_strategy at a concrete
configuration whose pull_method is "rsync". -/
theorem startup_rejects_invalid_method_or_strategy_witness :
    ∃ e, startupValidate Except.ok configBadPullMethod = .error e :=
  startup_rejects_invalid_method_or_strategy Except.ok configBadPullMethod
    (Or.inl (by decide))

/-- Claim C5: after one successful FetchUserContent call, every later call on
the returned user gives back the same cached UserContent without any remote
request, whatever the remote would now answer. -/
theorem FetchUserContent_cached_after_success
    (pm pm2 : String) (pages pages2 : List (Except String (List GitlabProject)))
    (u u2 : User) (c : UserContent) (n : Nat)
    (h : FetchUserContent pm pages u = (.ok c, u2, n)) :
    FetchUserContent pm2 pages2 u2 = (.ok c, u2, 0) := by
  have hc : u2.content = some c := by
    unfold FetchUserContent at h
    split at h
    · rename_i c0 heq
      simp only [Prod.mk.injEq, Except.ok.injEq] at h
      rw [← h.2.1, heq, h.1]
    · rename_i heq
      split at h
      · simp at h
      · rename_i m hm
        simp only [Prod.mk.injEq, Except.ok.injEq] at h
        rw [← h.2.1]
        exact congrArg some h.1
  unfold FetchUserContent
  rw [hc]

/-- Witness for FetchUserContent_cached_after_success: a concrete first fetch
succeeds, and the follow-up call on the cached user answers from the cache
even against an empty remote. -/
theorem FetchUserContent_cached_after_success_witness :
    FetchUserContent PullMethodSSH [] userCached = (.ok contentFoo, userCached, 0) :=
  FetchUserContent_cached_after_success PullMethodHTTP PullMethodSSH pagesFoo []
    userFresh userCached contentFoo 1 rfl

/-- Claim C7: a remote API error on any page makes FetchUserContent return
the error with the user's cache left unset, and a later call re-attempts the
full fetch (it performs the full request count again). -/
theorem FetchUserContent_error_leaves_cache_unset
    (pm pm2 : String) (pages pages2 : List (Except String (List GitlabProject)))
    (u : User) (e : String)
    (hu : u.content = none)
    (hl : listUserProjectsLoop pm pages [] = .error e) :
    FetchUserContent pm pages u = (.error e, u, requestCount pages) ∧
    (FetchUserContent pm2 pages2 u).2.2 = requestCount pages2 := by
  constructor
  · unfold FetchUserContent
    rw [hu, hl]
  · unfold FetchUserContent
    rw [hu]
    split
    · rename_i heq
      exact absurd heq (by simp)
    · split <;> rfl

/-- Witness for FetchUserContent_error_leaves_cache_unset: the second page
request fails, the call errors with the cache unset, and the retry fetches
again. -/
theorem FetchUserContent_error_leaves_cache_unset_witness :
    FetchUserContent PullMethodHTTP pagesErr userFresh =
      (.error "failed to fetch projects in gitlab: boom", userFresh, requestCount pagesErr) ∧
    (FetchUserContent PullMethodHTTP pagesFoo userFresh).2.2 = requestCount pagesFoo :=
  FetchUserContent_error_leaves_cache_unset PullMethodHTTP PullMethodHTTP pagesErr pagesFoo
    userFresh "failed to fetch projects in gitlab: boom" rfl rfl

theorem newProject_Name (pullMethod : String) (gp : GitlabProject) :
    (newProjectFromGitlabProject pullMethod gp).Name = gp.Path := by
  simp only [newProjectFromGitlabProject]
  split <;> split <;> rfl

theorem mapLookup_filter_ne (m : ProjMap) (k n : String) (h : ¬ n = k) :
    mapLookup n (m.filter (fun kv => kv.1 != k)) = mapLookup n m := by
  induction m with
  | nil => rfl
  | cons kv t ih =>
    rcases eq_or_ne kv.1 k with hk | hk
    · have hkn : ¬ k = n := fun hh => h hh.symm
      simp [List.filter_cons, hk, mapLookup, hkn, ih]
    · simp [List.filter_cons, bne_iff_ne, hk, mapLookup, ih]

theorem mapLookup_mapInsert (m : ProjMap) (k : String) (v : Project) (n : String) :
    mapLookup n (mapInsert m k v) = if n = k then some v else mapLookup n m := by
  by_cases h : n = k
  · subst h
    simp [mapInsert, mapLookup]
  · have hk : ¬ k = n := fun hh => h hh.symm
    simp [mapInsert, mapLookup, h, hk, mapLookup_filter_ne m k n h]

theorem addPageProjects_cons (pullMethod : String) (m : ProjMap) (gp : GitlabProject)
    (rest : List GitlabProject) :
    addPageProjects pullMethod m (gp :: rest) =
      addPageProjects pullMethod
        (mapInsert m (newProjectFromGitlabProject pullMethod gp).Name
          (newProjectFromGitlabProject pullMethod gp)) rest := rfl

theorem mapLookup_addPageProjects (pullMethod : String) (page : List GitlabProject)
    (m : ProjMap) (n : String) :
    mapLookup n (addPageProjects pullMethod m page) =
      match lastNamed n page with
      | some p => some (newProjectFromGitlabProject pullMethod p)
      | none => mapLookup n m := by
  induction page generalizing m with
  | nil => rfl
  | cons gp rest ih =>
    rw [addPageProjects_cons, ih]
    cases hrest : lastNamed n rest with
    | some q => simp [lastNamed, hrest]
    | none =>
      rw [mapLookup_mapInsert, newProject_Name]
      by_cases hn : n = gp.Path
      · subst hn
        simp [lastNamed, hrest]
      · have hn2 : ¬ gp.Path = n := fun hh => hn hh.symm
        simp [lastNamed, hrest, hn, hn2]

theorem lastNamed_append (n : String) (xs ys : List GitlabProject) :
    lastNamed n (xs ++ ys) =
      match lastNamed n ys with
      | some q => some q
      | none => lastNamed n xs := by
  induction xs with
  | nil =>
    simp only [List.nil_append]
    cases lastNamed n ys <;> rfl
  | cons x xs ih =>
    simp only [List.cons_append, lastNamed, List.append_eq, ih]
    cases lastNamed n ys <;> cases lastNamed n xs <;> rfl

theorem mapLookup_foldl_addPageProjects (pullMethod : String)
    (pages : List (List GitlabProject)) (m : ProjMap) (n : String) :
    mapLookup n (pages.foldl (addPageProjects pullMethod) m) =
      match lastNamed n pages.flatten with
      | some p => some (newProjectFromGitlabProject pullMethod p)
      | none => mapLookup n m := by
  induction pages generalizing m with
  | nil => rfl
  | cons page rest ih =>
    rw [List.foldl_cons, ih, mapLookup_addPageProjects, List.flatten_cons, lastNamed_append]
    cases lastNamed n rest.flatten <;> cases lastNamed n page <;> rfl

theorem mapLookup_buildAll (pullMethod : String) (pages : List (List GitlabProject))
    (n : String) :
    mapLookup n (buildAll pullMethod pages) =
      (lastNamed n pages.flatten).map (newProjectFromGitlabProject pullMethod) := by
  unfold buildAll
  rw [mapLookup_foldl_addPageProjects]
  cases lastNamed n pages.flatten <;> rfl

theorem loop_ok_of_pages_ok (pullMethod : String) (pages : List (List GitlabProject))
    (m : ProjMap) :
    listUserProjectsLoop pullMethod (pages.map Except.ok) m =
      .ok (pages.foldl (addPageProjects pullMethod) m) := by
  induction pages generalizing m with
  | nil => rfl
  | cons page rest ih =>
    rw [List.map_cons, listUserProjectsLoop, ih, List.foldl_cons]

/-- Claim C1, counterexample: FetchUserContent given two remote projects that
share the name "dup" returns a UserContent holding a single entry, the second
project; the first is silently dropped rather than disambiguated. -/
theorem name_collision_drops_entry :
    FetchUserContent PullMethodHTTP [.ok [gpDup1, gpDup2]] userFresh =
      (.ok { Projects := [("dup",
          { ID := 2, Name := "dup", CloneURL := "http2", DefaultBranch := "main" })] },
       { userFresh with content := some { Projects := [("dup",
          { ID := 2, Name := "dup", CloneURL := "http2", DefaultBranch := "main" })] } },
       1) := rfl

/-- Claim C1, amended: a listing with colliding names never crashes and is
deterministic, but nothing is suffixed: the colliding name maps to the last
same-named project processed and every earlier one is silently dropped. -/
theorem name_collision_last_write_wins (pullMethod : String)
    (pages : List (List GitlabProject)) (n : String) :
    listUserProjectsLoop pullMethod (pages.map Except.ok) [] =
      .ok (buildAll pullMethod pages) ∧
    mapLookup n (buildAll pullMethod pages) =
      (lastNamed n pages.flatten).map (newProjectFromGitlabProject pullMethod) :=
  ⟨loop_ok_of_pages_ok pullMethod pages [], mapLookup_buildAll pullMethod pages n⟩

/-- Claim C8, counterexample: two pages each carrying a project at path "dup";
the completed pagination returns a single entry (the later page's project),
so the result does not contain an entry for every project on every page. -/
theorem pagination_drops_cross_page_duplicate :
    listUserProjectsLoop PullMethodHTTP [.ok [gpDup1], .ok [gpDup2]] [] =
      .ok [("dup",
        { ID := 2, Name := "dup", CloneURL := "http2", DefaultBranch := "main" })] := rfl

theorem lastNamed_eq_none (n : String) (l : List GitlabProject)
    (h : n ∉ l.map GitlabProject.Path) : lastNamed n l = none := by
  induction l with
  | nil => rfl
  | cons p rest ih =>
    simp only [List.map_cons, List.mem_cons, not_or] at h
    simp only [lastNamed, ih h.2]
    rw [if_neg (fun hh => h.1 hh.symm)]

theorem lastNamed_of_mem_nodup (p : GitlabProject) (l : List GitlabProject)
    (hmem : p ∈ l) (hnodup : (l.map GitlabProject.Path).Nodup) :
    lastNamed p.Path l = some p := by
  induction l with
  | nil => cases hmem
  | cons q rest ih =>
    simp only [List.map_cons, List.nodup_cons] at hnodup
    rcases List.mem_cons.mp hmem with heq | hmem2
    · subst heq
      simp [lastNamed, lastNamed_eq_none _ _ hnodup.1]
    · simp only [lastNamed, ih hmem2 hnodup.2]

/-- Claim C8, amended: the loop consumes every page down to the last one, and
whenever the project names are pairwise distinct across all pages the result
contains the entry of every project on every page; a name shared between
pages, however, keeps only the last occurrence. -/
theorem pagination_complete_for_distinct_names (pullMethod : String)
    (pages : List (List GitlabProject)) (p : GitlabProject)
    (hnodup : (pages.flatten.map GitlabProject.Path).Nodup)
    (hp : p ∈ pages.flatten) :
    listUserProjectsLoop pullMethod (pages.map Except.ok) [] =
      .ok (buildAll pullMethod pages) ∧
    mapLookup p.Path (buildAll pullMethod pages) =
      some (newProjectFromGitlabProject pullMethod p) := by
  refine ⟨loop_ok_of_pages_ok pullMethod pages [], ?_⟩
  rw [mapLookup_buildAll, lastNamed_of_mem_nodup p pages.flatten hp hnodup]
  rfl

/-- Witness for pagination_complete_for_distinct_names on a concrete
two-page listing with distinct names. -/
theorem pagination_complete_for_distinct_names_witness :
    listUserProjectsLoop PullMethodHTTP ([[gpFoo], [gpBar]].map Except.ok) [] =
      .ok (buildAll PullMethodHTTP [[gpFoo], [gpBar]]) ∧
    mapLookup gpBar.Path (buildAll PullMethodHTTP [[gpFoo], [gpBar]]) =
      some (newProjectFromGitlabProject PullMethodHTTP gpBar) :=
  pagination_complete_for_distinct_names PullMethodHTTP [[gpFoo], [gpBar]] gpBar
    (by decide) (by decide)

theorem stepCaller_inv (pullMethod : String) (pages : List (Except String (List GitlabProject)))
    (m : ProjMap) (hok : listUserProjectsLoop pullMethod pages [] = .ok m)
    (content : Option UserContent) (pc : CallerPC)
    (hc : content = none ∨ content = some { Projects := m })
    (hpc : pcInv { Projects := m } pc) :
    ((stepCaller pullMethod pages content pc).1 = none ∨
      (stepCaller pullMethod pages content pc).1 = some { Projects := m }) ∧
    pcInv { Projects := m } (stepCaller pullMethod pages content pc).2.2 ∧
    (stepCaller pullMethod pages content pc).2.1 +
      fetchCredit (stepCaller pullMethod pages content pc).2.2 ≤ fetchCredit pc := by
  cases pc with
  | start =>
    rcases hc with h | h <;> subst h
    · refine ⟨Or.inl rfl, ?_, Nat.le_refl 1⟩
      show ((listUserProjectsLoop pullMethod pages []).map
          (fun m => ({ Projects := m } : UserContent))) = .ok { Projects := m }
      rw [hok]
      rfl
    · exact ⟨Or.inr rfl, rfl, Nat.zero_le 1⟩
  | fetched r =>
    cases r with
    | ok c =>
      have hceq : c = { Projects := m } := by simpa [pcInv] using hpc
      subst hceq
      exact ⟨Or.inr rfl, rfl, Nat.le_refl 0⟩
    | error e => exact Except.noConfusion hpc
  | done r => exact ⟨hc, hpc, Nat.le_refl 0⟩

theorem stepRace_preserves (pullMethod : String)
    (pages : List (Except String (List GitlabProject))) (m : ProjMap)
    (hok : listUserProjectsLoop pullMethod pages [] = .ok m)
    (s : RaceState) (who : Bool)
    (hinv : raceInv { Projects := m } s) :
    raceInv { Projects := m } (stepRace pullMethod pages s who) := by
  obtain ⟨hc, ha, hb, hcount⟩ := hinv
  cases who with
  | true =>
    have h := stepCaller_inv pullMethod pages m hok s.content s.pcA hc ha
    have hcred := h.2.2
    refine ⟨h.1, h.2.1, hb, ?_⟩
    show s.fetchCount + (stepCaller pullMethod pages s.content s.pcA).2.1 +
        fetchCredit (stepCaller pullMethod pages s.content s.pcA).2.2 +
        fetchCredit s.pcB ≤ 2
    omega
  | false =>
    have h := stepCaller_inv pullMethod pages m hok s.content s.pcB hc hb
    have hcred := h.2.2
    refine ⟨h.1, ha, h.2.1, ?_⟩
    show s.fetchCount + (stepCaller pullMethod pages s.content s.pcB).2.1 +
        fetchCredit s.pcA +
        fetchCredit (stepCaller pullMethod pages s.content s.pcB).2.2 ≤ 2
    omega

theorem runRace_inv (pullMethod : String)
    (pages : List (Except String (List GitlabProject))) (m : ProjMap)
    (hok : listUserProjectsLoop pullMethod pages [] = .ok m)
    (sched : List Bool) (s : RaceState)
    (hinv : raceInv { Projects := m } s) :
    raceInv { Projects := m } (runRace pullMethod pages sched s) := by
  induction sched generalizing s with
  | nil => exact hinv
  | cons w rest ih =>
    exact ih (stepRace pullMethod pages s w)
      (stepRace_preserves pullMethod pages m hok s w hinv)

/-- Claim C6, counterexample: under the schedule in which both goroutines
pass the nil check before either writes the cache, a complete run of
FetchUserContent performs two remote fetches, not exactly one, even though
both goroutines finish with the same content. -/
theorem race_double_fetch :
    (runRace PullMethodHTTP pagesFoo [true, false, true, false] raceInit).fetchCount = 2 ∧
    (runRace PullMethodHTTP pagesFoo [true, false, true, false] raceInit).pcA =
      .done (.ok contentFoo) ∧
    (runRace PullMethodHTTP pagesFoo [true, false, true, false] raceInit).pcB =
      .done (.ok contentFoo) :=
  ⟨rfl, rfl, rfl⟩

/-- Claim C6, amended: the plain nil-check-then-set of FetchUserContent is
not a fetch-once guard: racing first accesses may each perform the remote
fetch (up to two fetches for two goroutines, and a schedule reaching two
exists). When the remote succeeds, however, every goroutine past its check
holds exactly the converged content and the cache field is either still
empty or holds that same content, so all racing callers do receive the same
result. -/
theorem race_converges_but_not_single_fetch (pullMethod : String)
    (pages : List (Except String (List GitlabProject))) (m : ProjMap) (sched : List Bool)
    (hok : listUserProjectsLoop pullMethod pages [] = .ok m) :
    pcInv { Projects := m } (runRace pullMethod pages sched raceInit).pcA ∧
    pcInv { Projects := m } (runRace pullMethod pages sched raceInit).pcB ∧
    ((runRace pullMethod pages sched raceInit).content = none ∨
      (runRace pullMethod pages sched raceInit).content = some { Projects := m }) ∧
    (runRace pullMethod pages sched raceInit).fetchCount ≤ 2 := by
  have h := runRace_inv pullMethod pages m hok sched raceInit
    ⟨Or.inl rfl, trivial, trivial, Nat.le_refl 2⟩
  obtain ⟨hc, ha, hb, hcount⟩ := h
  exact ⟨ha, hb, hc, by omega⟩

/-- Witness for race_converges_but_not_single_fetch on the concrete
single-page remote and the double-fetch schedule. -/
theorem race_converges_but_not_single_fetch_witness :
    pcInv { Projects := contentFoo.Projects }
      (runRace PullMethodHTTP pagesFoo [true, false, true, false] raceInit).pcA ∧
    pcInv { Projects := contentFoo.Projects }
      (runRace PullMethodHTTP pagesFoo [true, false, true, false] raceInit).pcB ∧
    ((runRace PullMethodHTTP pagesFoo [true, false, true, false] raceInit).content = none ∨
      (runRace PullMethodHTTP pagesFoo [true, false, true, false] raceInit).content =
        some { Projects := contentFoo.Projects }) ∧
    (runRace PullMethodHTTP pagesFoo [true, false, true, false] raceInit).fetchCount ≤ 2 :=
  race_converges_but_not_single_fetch PullMethodHTTP pagesFoo contentFoo.Projects
    [true, false, true, false] rfl

end Gitlabfs
